import Mathlib

/-!
# Verification of the crypto-hdkey registry item (src/src/crypto_hd_key.rs)

Shallow embedding of the CBOR value model (serde_cbor::Value restricted to
the shapes this codec produces and consumes), the HD-key entity, its
encoder `to_cbor` / `to_bytes`, decoder `from_cbor` / `from_bytes`, and the
BIP-32 payload builder underlying `get_bip32_key`.

Conventions of the embedding:
- Rust `u8` bytes are `Nat`; `Vec<u8>` (the `Bytes` alias) is `List Nat`.
- Rust `String` values are represented by their UTF-8 byte lists, so text
  equality is byte-list equality.
- Rust `i128` (serde_cbor integers) is `Int`.
- A Rust panic (`.unwrap()` on `None`, `.last().unwrap()` on an empty
  vector) is modelled by returning `none` from an `Option`-valued function.
- `BTreeMap<Value, Value>` built by `to_cbor` only ever holds integer keys
  starting from the empty map, so the encoder-side map is a sorted
  association list over `Int` keys (`hdMapInsert` mirrors BTreeMap insert:
  replace on equal key, otherwise keep ascending order). Decoder-side maps
  are arbitrary `List (Value × Value)` with first-match lookup.
-/

/-- serde_cbor::Value, restricted to the variants this codec touches.
Floats and indefinite-length items are not modelled (no claim depends on
them); `text` carries the UTF-8 bytes of the Rust String. -/
inductive Value where
  | null : Value
  | bool (b : Bool) : Value
  | integer (i : Int) : Value
  | bytes (bs : List Nat) : Value
  | text (ts : List Nat) : Value
  | array (xs : List Value) : Value
  | map (m : List (Value × Value)) : Value
  | tag (t : Nat) (v : Value) : Value

/-- `BTreeMap::get(&Value::Integer(k))`: only an `Integer` key can compare
equal to an `Integer` probe, so lookup scans for the first integer key
equal to `k`. -/
def mapGetInt : List (Value × Value) → Int → Option Value
  | [], _ => none
  | (Value.integer j, w) :: rest, k => if j = k then some w else mapGetInt rest k
  | (_, _) :: rest, k => mapGetInt rest k

/-- `BTreeMap::insert` on the integer-keyed maps the encoder builds:
replace an equal key, otherwise insert keeping keys in ascending order. -/
def hdMapInsert : List (Int × Value) → Int → Value → List (Int × Value)
  | [], k, v => [(k, v)]
  | (j, w) :: rest, k, v =>
    if k = j then (k, v) :: rest
    else if k < j then (k, v) :: (j, w) :: rest
    else (j, w) :: hdMapInsert rest k v

/-- Wrap an integer-keyed association list as CBOR map entries. -/
def wrapIntMap (l : List (Int × Value)) : List (Value × Value) :=
  l.map (fun p => (Value.integer p.1, p.2))

/-- Rust `[u8; 4]` (the `Fingerprint` alias). -/
structure Fingerprint where
  b0 : Fin 256
  b1 : Fin 256
  b2 : Fin 256
  b3 : Fin 256
deriving DecidableEq, Repr

/-- `u32::from_be_bytes` on a fingerprint. -/
def u32OfFp (f : Fingerprint) : Nat :=
  f.b0.val * 16777216 + f.b1.val * 65536 + f.b2.val * 256 + f.b3.val

/-- `u32::to_be_bytes`. -/
def u32ToFp (n : Nat) : Fingerprint :=
  ⟨⟨n / 16777216 % 256, Nat.mod_lt _ (by norm_num)⟩,
   ⟨n / 65536 % 256, Nat.mod_lt _ (by norm_num)⟩,
   ⟨n / 256 % 256, Nat.mod_lt _ (by norm_num)⟩,
   ⟨n % 256, Nat.mod_lt _ (by norm_num)⟩⟩

/-- Rust `x as u32` for `x : i128`: truncation to the low 32 bits
(two's-complement wrap for negative values). -/
def i128AsU32 (x : Int) : Nat := (x % 4294967296).toNat

/-- Registry tag of the Coin-Info collaborator (0x131 = 305, the D90131
wrapper visible in the source's test vector). -/
def coinInfoTag : Nat := 305

/-- Registry tag of the Key-Path collaborator (0x130 = 304, the D90130
wrapper visible in the source's test vector). -/
def keyPathTag : Nat := 304

/-- Modelled from the spec: the Coin-Info collaborator (crypto_coin_info
is not under src/). A coin type + network selector, each optional; its
canonical map uses key 1 for the coin type and key 2 for the network,
matching the A10201 sub-map in the source's test vector. -/
structure CryptoCoinInfo where
  coin_type : Option Nat
  network : Option Nat
deriving DecidableEq, Repr

/-- Modelled from the spec: Coin-Info encode operation (canonical
associative value with integer keys 1 and 2, present fields only). -/
def CryptoCoinInfo.to_cbor (c : CryptoCoinInfo) : Value :=
  Value.map (wrapIntMap
    ((match c.coin_type with
      | some t => hdMapInsert [] 1 (Value.integer (Int.ofNat t))
      | none => []).append
     (match c.network with
      | some n => [(2, Value.integer (Int.ofNat n))]
      | none => [])))

/-- Modelled from the spec: Coin-Info decode operation (reads optional
integer entries at keys 1 and 2, failing on a wrong-typed entry). -/
def CryptoCoinInfo.from_cbor (v : Value) : Except String CryptoCoinInfo :=
  match v with
  | Value.map m =>
    match mapGetInt m 1 with
    | some (Value.integer t) =>
      if t < 0 then Except.error "crypto-coin-info: negative coin type" else
      match mapGetInt m 2 with
      | some (Value.integer n) =>
        if n < 0 then Except.error "crypto-coin-info: negative network" else
        Except.ok ⟨some t.toNat, some n.toNat⟩
      | some _ => Except.error "crypto-coin-info: unexpected network value"
      | none => Except.ok ⟨some t.toNat, none⟩
    | some _ => Except.error "crypto-coin-info: unexpected coin type value"
    | none =>
      match mapGetInt m 2 with
      | some (Value.integer n) =>
        if n < 0 then Except.error "crypto-coin-info: negative network" else
        Except.ok ⟨none, some n.toNat⟩
      | some _ => Except.error "crypto-coin-info: unexpected network value"
      | none => Except.ok ⟨none, none⟩
  | _ => Except.error "crypto-coin-info: expected a map"

/-- Modelled from the spec: one step of a derivation path in the Key-Path
collaborator (crypto_key_path is not under src/): an optional child index
(absent for a wildcard) and a hardened flag. -/
structure PathComponent where
  index : Option Nat
  hardened : Bool
deriving DecidableEq, Repr

/-- Modelled from the spec: the canonical index of a path component — the
raw index OR 0x80000000 when hardened, absent when the index is absent. -/
def PathComponent.get_canonical_index (c : PathComponent) : Option Nat :=
  c.index.map (fun i => if c.hardened then i ||| 2147483648 else i)

/-- Modelled from the spec: the Key-Path collaborator — an ordered list of
path components with optional source fingerprint and depth. -/
structure CryptoKeyPath where
  components : List PathComponent
  source_fingerprint : Option Nat
  depth : Option Nat
deriving DecidableEq, Repr

/-- Modelled from the spec: accessor for the component list. -/
def CryptoKeyPath.get_components (p : CryptoKeyPath) : List PathComponent :=
  p.components

/-- Modelled from the spec: Key-Path component array encoding — each
component contributes its index (an integer, or an empty array for a
wildcard) followed by its hardened flag, matching the flat
index/bool alternation in the source's test vector. -/
def encodeComponents (cs : List PathComponent) : List Value :=
  cs.flatMap (fun c =>
    [match c.index with
     | some i => Value.integer (Int.ofNat i)
     | none => Value.array [], Value.bool c.hardened])

/-- Modelled from the spec: inverse of `encodeComponents`. -/
def decodeComponents : List Value → Except String (List PathComponent)
  | [] => Except.ok []
  | Value.integer i :: Value.bool h :: rest =>
    if i < 0 then Except.error "crypto-key-path: negative index" else
    (decodeComponents rest).map (fun cs => ⟨some i.toNat, h⟩ :: cs)
  | Value.array [] :: Value.bool h :: rest =>
    (decodeComponents rest).map (fun cs => ⟨none, h⟩ :: cs)
  | _ => Except.error "crypto-key-path: unexpected component entry"

/-- Modelled from the spec: Key-Path encode operation — a map with the
component array at key 1 and the optional source fingerprint and depth at
keys 2 and 3. -/
def CryptoKeyPath.to_cbor (p : CryptoKeyPath) : Value :=
  Value.map (wrapIntMap
    ((1, Value.array (encodeComponents p.components)) ::
     ((match p.source_fingerprint with
       | some f => [((2 : Int), Value.integer (Int.ofNat f))]
       | none => []).append
      (match p.depth with
       | some d => [((3 : Int), Value.integer (Int.ofNat d))]
       | none => []))))

/-- Modelled from the spec: Key-Path decode operation. -/
def CryptoKeyPath.from_cbor (v : Value) : Except String CryptoKeyPath :=
  match v with
  | Value.map m =>
    match mapGetInt m 1 with
    | some (Value.array xs) =>
      match decodeComponents xs with
      | Except.error e => Except.error e
      | Except.ok cs =>
        match mapGetInt m 2 with
        | some (Value.integer f) =>
          if f < 0 then Except.error "crypto-key-path: negative fingerprint" else
          match mapGetInt m 3 with
          | some (Value.integer d) =>
            if d < 0 then Except.error "crypto-key-path: negative depth" else
            Except.ok ⟨cs, some f.toNat, some d.toNat⟩
          | some _ => Except.error "crypto-key-path: unexpected depth value"
          | none => Except.ok ⟨cs, some f.toNat, none⟩
        | some _ => Except.error "crypto-key-path: unexpected fingerprint value"
        | none =>
          match mapGetInt m 3 with
          | some (Value.integer d) =>
            if d < 0 then Except.error "crypto-key-path: negative depth" else
            Except.ok ⟨cs, none, some d.toNat⟩
          | some _ => Except.error "crypto-key-path: unexpected depth value"
          | none => Except.ok ⟨cs, none, none⟩
    | some _ => Except.error "crypto-key-path: unexpected components value"
    | none => Except.error "crypto-key-path: components are required"
  | _ => Except.error "crypto-key-path: expected a map"

/-- The HD-key entity (struct CryptoHDKey, src/src/crypto_hd_key.rs:22). -/
structure CryptoHDKey where
  is_master : Option Bool
  is_private_key : Option Bool
  key : Option (List Nat)
  chain_code : Option (List Nat)
  use_info : Option CryptoCoinInfo
  origin : Option CryptoKeyPath
  children : Option CryptoKeyPath
  parent_fingerprint : Option Fingerprint
  name : Option (List Nat)
  note : Option (List Nat)
deriving DecidableEq, Repr

/-- `Default::default()`: every field absent. -/
def CryptoHDKey.default : CryptoHDKey :=
  ⟨none, none, none, none, none, none, none, none, none, none⟩

/-- `CryptoHDKey::new_master_key` (crypto_hd_key.rs:37). -/
def CryptoHDKey.new_master_key (key chain_code : List Nat) : CryptoHDKey :=
  { CryptoHDKey.default with is_master := some true, key := some key, chain_code := some chain_code }

/-- `CryptoHDKey::new_extended_key` (crypto_hd_key.rs:41). -/
def CryptoHDKey.new_extended_key (is_private_key : Option Bool) (key : List Nat)
    (chain_code : Option (List Nat)) (use_info : Option CryptoCoinInfo)
    (origin : Option CryptoKeyPath) (children : Option CryptoKeyPath)
    (parent_fingerprint : Option Fingerprint) (name : Option (List Nat))
    (note : Option (List Nat)) : CryptoHDKey :=
  ⟨some false, is_private_key, some key, chain_code, use_info, origin, children,
   parent_fingerprint, name, note⟩

/-- Method `is_master()` (crypto_hd_key.rs:66): stored flag or false. -/
def CryptoHDKey.isMaster (e : CryptoHDKey) : Bool :=
  e.is_master.getD false

/-- Method `is_private_key()` (crypto_hd_key.rs:69): stored flag or false. -/
def CryptoHDKey.isPrivateKey (e : CryptoHDKey) : Bool :=
  e.is_private_key.getD false

/-- Big-endian bytes of a `u32` value (`u32::to_be_bytes`). -/
def be4 (n : Nat) : List Nat :=
  [n / 16777216 % 256, n / 65536 % 256, n / 256 % 256, n % 256]

/-- The fingerprint as the four payload bytes (`Fingerprint::to_vec`). -/
def fpBytes (f : Fingerprint) : List Nat :=
  [f.b0.val, f.b1.val, f.b2.val, f.b3.val]

/-- The 78-byte pre-checksum payload assembled by `get_bip32_key`
(crypto_hd_key.rs:97-127), before the base58-check step (an injective
external post-processing: 4-byte double-SHA256 checksum + base58).
`none` models the Rust panic of `.last().unwrap()` when the origin path
has no components. Note the source defaults an absent key to
`vec![0; 32]` (32 zero bytes), not 33. -/
def CryptoHDKey.get_bip32_payload (e : CryptoHDKey) : Option (List Nat) :=
  let parent_fingerprint := (e.parent_fingerprint.getD (u32ToFp 0))
  let chain_code := e.chain_code.getD (List.replicate 32 0)
  let key := e.key.getD (List.replicate 32 0)
  if e.isMaster then
    some ([0x04, 0x88, 0xAD, 0xE4] ++ [0] ++ fpBytes parent_fingerprint ++
      be4 0 ++ chain_code ++ key)
  else
    let version : List Nat :=
      if e.isPrivateKey then [0x04, 0x88, 0xAD, 0xE4] else [0x04, 0x88, 0xB2, 0x1E]
    match e.origin with
    | some x =>
      match x.get_components.getLast? with
      | none => none
      | some c =>
        let depth := x.get_components.length % 256
        let index := (c.get_canonical_index).getD 0
        some (version ++ [depth] ++ fpBytes parent_fingerprint ++ be4 index ++
          chain_code ++ key)
    | none =>
      some (version ++ [0] ++ fpBytes parent_fingerprint ++ be4 0 ++
        chain_code ++ key)

/-- One conditional insert of the extended branch of `to_cbor`: insert
the encoded field when present, leave the map unchanged when absent. -/
def stepOpt {A : Type} (m : List (Int × Value)) (k : Int) (f : A → Value) :
    Option A → List (Int × Value)
  | some x => hdMapInsert m k (f x)
  | none => m

/-- The extended branch of `to_cbor` (crypto_hd_key.rs:145-209), written
as the chain of its conditional inserts in source order: key 3 is
mandatory, each present optional field is inserted independently under
keys 2, 4, 5, 6, 8, 9, 10 — except that the source inserts the
`children` value under the ORIGIN constant (key 6, crypto_hd_key.rs:182),
not under CHILDREN (key 7); the embedding reproduces that insertion
exactly. -/
def extendedMapList (e : CryptoHDKey) (k : List Nat) : List (Int × Value) :=
  stepOpt
    (stepOpt
      (stepOpt
        (stepOpt
          (stepOpt
            (stepOpt
              (stepOpt
                (hdMapInsert (stepOpt [] 2 Value.bool e.is_private_key)
                  3 (Value.bytes k))
                4 Value.bytes e.chain_code)
              5 (fun x => Value.tag coinInfoTag x.to_cbor) e.use_info)
            6 (fun x => Value.tag keyPathTag x.to_cbor) e.origin)
          6 (fun x => Value.tag keyPathTag x.to_cbor) e.children)
        8 (fun x => Value.integer (Int.ofNat (u32OfFp x))) e.parent_fingerprint)
      9 Value.text e.name)
    10 Value.text e.note

/-- `to_cbor` (crypto_hd_key.rs:139-211): branch on `is_master()`; the
master branch inserts exactly keys 1, 3, 4, the extended branch builds
`extendedMapList`. `none` models the `.unwrap()` panic on an absent
`key` (or absent `chain_code` in the master branch). -/
def CryptoHDKey.to_cbor (e : CryptoHDKey) : Option Value :=
  if e.isMaster then
    match e.key, e.chain_code with
    | some k, some c =>
      some (Value.map (wrapIntMap
        (hdMapInsert (hdMapInsert (hdMapInsert [] 1 (Value.bool e.isMaster))
          3 (Value.bytes k)) 4 (Value.bytes c))))
    | _, _ => none
  else
    match e.key with
    | none => none
    | some k => some (Value.map (wrapIntMap (extendedMapList e k)))

/-- CBOR initial byte plus shortest-form argument encoding for a major
type, as serde_cbor's serializer emits it. -/
def encodeHead (major n : Nat) : List Nat :=
  if n < 24 then [major * 32 + n]
  else if n < 256 then [major * 32 + 24, n]
  else if n < 65536 then [major * 32 + 25, n / 256, n % 256]
  else if n < 4294967296 then
    [major * 32 + 26, n / 16777216 % 256, n / 65536 % 256, n / 256 % 256, n % 256]
  else
    [major * 32 + 27, n / 72057594037927936 % 256, n / 281474976710656 % 256,
     n / 1099511627776 % 256, n / 4294967296 % 256, n / 16777216 % 256,
     n / 65536 % 256, n / 256 % 256, n % 256]

mutual

/-- `serde_cbor::to_vec` on a Value: standard CBOR with definite lengths,
map entries emitted in stored (BTreeMap ascending) order. -/
def encodeValue : Value → List Nat
  | Value.null => [0xF6]
  | Value.bool b => [if b then 0xF5 else 0xF4]
  | Value.integer i =>
    if 0 ≤ i then encodeHead 0 i.toNat else encodeHead 1 (-1 - i).toNat
  | Value.bytes bs => encodeHead 2 bs.length ++ bs
  | Value.text ts => encodeHead 3 ts.length ++ ts
  | Value.array xs => encodeHead 4 xs.length ++ encodeValueList xs
  | Value.map m => encodeHead 5 m.length ++ encodeValuePairs m
  | Value.tag t v => encodeHead 6 t ++ encodeValue v

/-- Concatenated encodings of a list of values. -/
def encodeValueList : List Value → List Nat
  | [] => []
  | v :: rest => encodeValue v ++ encodeValueList rest

/-- Concatenated encodings of map entries (key then value). -/
def encodeValuePairs : List (Value × Value) → List Nat
  | [] => []
  | (k, v) :: rest => encodeValue k ++ encodeValue v ++ encodeValuePairs rest

end

/-- `to_bytes` (crypto_hd_key.rs:213-216): serialize the CBOR value. -/
def CryptoHDKey.to_bytes (e : CryptoHDKey) : Option (List Nat) :=
  e.to_cbor.map encodeValue

/-- UTF-8 continuation byte. -/
def isCont (b : Nat) : Bool := 128 ≤ b && b ≤ 191

/-- UTF-8 validity of a byte list (serde_cbor rejects text strings that
are not valid UTF-8). -/
def utf8Valid : List Nat → Bool
  | [] => true
  | b :: rest =>
    if b ≤ 127 then utf8Valid rest
    else if 194 ≤ b && b ≤ 223 then
      match rest with
      | c :: r => isCont c && utf8Valid r
      | [] => false
    else if b = 224 then
      match rest with
      | c1 :: c2 :: r => (160 ≤ c1 && c1 ≤ 191) && isCont c2 && utf8Valid r
      | _ => false
    else if (225 ≤ b && b ≤ 236) || b = 238 || b = 239 then
      match rest with
      | c1 :: c2 :: r => isCont c1 && isCont c2 && utf8Valid r
      | _ => false
    else if b = 237 then
      match rest with
      | c1 :: c2 :: r => (128 ≤ c1 && c1 ≤ 159) && isCont c2 && utf8Valid r
      | _ => false
    else if b = 240 then
      match rest with
      | c1 :: c2 :: c3 :: r => (144 ≤ c1 && c1 ≤ 191) && isCont c2 && isCont c3 && utf8Valid r
      | _ => false
    else if 241 ≤ b && b ≤ 243 then
      match rest with
      | c1 :: c2 :: c3 :: r => isCont c1 && isCont c2 && isCont c3 && utf8Valid r
      | _ => false
    else if b = 244 then
      match rest with
      | c1 :: c2 :: c3 :: r => (128 ≤ c1 && c1 ≤ 143) && isCont c2 && isCont c3 && utf8Valid r
      | _ => false
    else false

/-- Split off the first `n` bytes of the input, if available. -/
def readBytes : Nat → List Nat → Option (List Nat × List Nat)
  | 0, bs => some ([], bs)
  | _ + 1, [] => none
  | n + 1, b :: rest => (readBytes n rest).map (fun p => (b :: p.1, p.2))

/-- Big-endian value of a byte list. -/
def beVal (l : List Nat) : Nat := l.foldl (fun acc b => acc * 256 + b) 0

/-- Read the argument selected by the additional-information bits of a
CBOR initial byte (values 28-30 are reserved, 31 starts an
indefinite-length item, which is not modelled). -/
def readArg (ai : Nat) (bs : List Nat) : Option (Nat × List Nat) :=
  if ai < 24 then some (ai, bs)
  else if ai = 24 then
    match bs with
    | b :: r => some (b, r)
    | [] => none
  else if ai = 25 then (readBytes 2 bs).map (fun p => (beVal p.1, p.2))
  else if ai = 26 then (readBytes 4 bs).map (fun p => (beVal p.1, p.2))
  else if ai = 27 then (readBytes 8 bs).map (fun p => (beVal p.1, p.2))
  else none

/-- Group a flat key/value alternation into map entries. -/
def pairUp : List Value → List (Value × Value)
  | k :: v :: rest => (k, v) :: pairUp rest
  | _ => []

mutual

/-- One CBOR item from a byte stream (the core of `serde_cbor::from_slice`),
returning the item and the remaining bytes. The fuel bounds nesting depth;
every nesting level consumes at least one header byte, so a fuel of the
input length suffices. Entries of a parsed map are kept in encounter
order (serde_cbor collects them into a BTreeMap; the difference is only
observable for non-canonical inputs with unsorted or duplicate keys,
which no claim touches). -/
def parseValue : Nat → List Nat → Except String (Value × List Nat)
  | 0, _ => Except.error "cbor: nesting too deep"
  | _ + 1, [] => Except.error "cbor: unexpected end of input"
  | fuel + 1, b :: bs =>
    let major := b / 32
    let ai := b % 32
    if major = 7 then
      if ai = 20 then Except.ok (Value.bool false, bs)
      else if ai = 21 then Except.ok (Value.bool true, bs)
      else if ai = 22 then Except.ok (Value.null, bs)
      else Except.error "cbor: unsupported simple or float value"
    else
      match readArg ai bs with
      | none => Except.error "cbor: truncated or unsupported header"
      | some (arg, rest) =>
        if major = 0 then Except.ok (Value.integer (Int.ofNat arg), rest)
        else if major = 1 then Except.ok (Value.integer (-1 - Int.ofNat arg), rest)
        else if major = 2 then
          match readBytes arg rest with
          | some (payload, r) => Except.ok (Value.bytes payload, r)
          | none => Except.error "cbor: truncated byte string"
        else if major = 3 then
          match readBytes arg rest with
          | some (payload, r) =>
            if utf8Valid payload then Except.ok (Value.text payload, r)
            else Except.error "cbor: text is not valid utf-8"
          | none => Except.error "cbor: truncated text string"
        else if major = 4 then
          match parseSeq fuel arg rest with
          | Except.ok (xs, r) => Except.ok (Value.array xs, r)
          | Except.error e => Except.error e
        else if major = 5 then
          match parseSeq fuel (2 * arg) rest with
          | Except.ok (xs, r) => Except.ok (Value.map (pairUp xs), r)
          | Except.error e => Except.error e
        else
          match parseValue fuel rest with
          | Except.ok (v, r) => Except.ok (Value.tag arg v, r)
          | Except.error e => Except.error e

/-- A fixed count of consecutive CBOR items; the fuel drops on every
recursive call so the mutual recursion is structural on it. -/
def parseSeq : Nat → Nat → List Nat → Except String (List Value × List Nat)
  | _, 0, bs => Except.ok ([], bs)
  | 0, _ + 1, _ => Except.error "cbor: nesting too deep"
  | fuel + 1, n + 1, bs =>
    match parseValue fuel bs with
    | Except.error e => Except.error e
    | Except.ok (v, r) =>
      match parseSeq fuel n r with
      | Except.error e => Except.error e
      | Except.ok (vs, r2) => Except.ok (v :: vs, r2)

end

/-- `serde_cbor::from_slice`: parse one item and require the input to be
fully consumed. A successful step of `parseValue` always consumes at
least one byte and at most two fuel units separate consecutive byte
consumptions, so a fuel of twice the input length cannot run out before
the input does — the fuel bound is never the cause of an error serde_cbor
would not also raise. -/
def cborFromSlice (bs : List Nat) : Except String Value :=
  match parseValue (2 * bs.length + 2) bs with
  | Except.error e => Except.error e
  | Except.ok (v, []) => Except.ok v
  | Except.ok (_, _ :: _) => Except.error "cbor: trailing data"

/-- An optional boolean entry (key 2 pattern, crypto_hd_key.rs:249-253). -/
def optBoolAt (m : List (Value × Value)) (k : Int) (msg : String) :
    Except String (Option Bool) :=
  match mapGetInt m k with
  | some (Value.bool b) => Except.ok (some b)
  | some _ => Except.error msg
  | none => Except.ok none

/-- A required byte-string entry (key 3 pattern, crypto_hd_key.rs:254-258). -/
def reqBytesAt (m : List (Value × Value)) (k : Int) (msgType msgMissing : String) :
    Except String (List Nat) :=
  match mapGetInt m k with
  | some (Value.bytes x) => Except.ok x
  | some _ => Except.error msgType
  | none => Except.error msgMissing

/-- An optional byte-string entry (key 4 pattern, crypto_hd_key.rs:259-263). -/
def optBytesAt (m : List (Value × Value)) (k : Int) (msg : String) :
    Except String (Option (List Nat)) :=
  match mapGetInt m k with
  | some (Value.bytes x) => Except.ok (some x)
  | some _ => Except.error msg
  | none => Except.ok none

/-- An optional text entry (keys 9 and 10, crypto_hd_key.rs:308-317). -/
def optTextAt (m : List (Value × Value)) (k : Int) (msg : String) :
    Except String (Option (List Nat)) :=
  match mapGetInt m k with
  | some (Value.text x) => Except.ok (some x)
  | some _ => Except.error msg
  | none => Except.ok none

/-- The optional fingerprint entry (key 8, crypto_hd_key.rs:303-307):
any integer is accepted and truncated with `as u32`, then stored as its
big-endian bytes. -/
def optFpAt (m : List (Value × Value)) (k : Int) (msg : String) :
    Except String (Option Fingerprint) :=
  match mapGetInt m k with
  | some (Value.integer x) => Except.ok (some (u32ToFp (i128AsU32 x)))
  | some _ => Except.error msg
  | none => Except.ok none

/-- The optional Coin-Info entry (key 5, crypto_hd_key.rs:264-276): the
wrapping tag must equal the collaborator's registry tag, then decoding is
delegated and a collaborator failure is propagated unchanged. -/
def optCoinInfoAt (m : List (Value × Value)) (k : Int) (msg : String) :
    Except String (Option CryptoCoinInfo) :=
  match mapGetInt m k with
  | some (Value.tag t v) =>
    if t = coinInfoTag then (CryptoCoinInfo.from_cbor v).map some
    else Except.error msg
  | some _ => Except.error msg
  | none => Except.ok none

/-- An optional Key-Path entry (keys 6 and 7, crypto_hd_key.rs:277-302). -/
def optKeyPathAt (m : List (Value × Value)) (k : Int) (msg : String) :
    Except String (Option CryptoKeyPath) :=
  match mapGetInt m k with
  | some (Value.tag t v) =>
    if t = keyPathTag then (CryptoKeyPath.from_cbor v).map some
    else Except.error msg
  | some _ => Except.error msg
  | none => Except.ok none

/-- `from_cbor` (crypto_hd_key.rs:220-321). The top-level value must be a
map; key 1 must be a boolean when present. Key 1 equal to `Some(true)`
selects the master branch (keys 3 and 4 required byte strings, everything
else ignored and left absent); any other key-1 outcome selects the
extended branch, whose decoded entity stores that outcome in `is_master`
(the `_is_master` binder of the source match). -/
def CryptoHDKey.from_cbor (v : Value) : Except String CryptoHDKey :=
  match v with
  | Value.map m =>
    match
      (match mapGetInt m 1 with
       | some (Value.bool b) => Except.ok (some b)
       | some _ => Except.error "invalid type: cannot parse is_master as bool"
       | none => Except.ok (none : Option Bool)) with
    | Except.error e => Except.error e
    | Except.ok (some true) =>
      match mapGetInt m 3 with
      | some (Value.bytes k) =>
        match mapGetInt m 4 with
        | some (Value.bytes c) =>
          Except.ok { CryptoHDKey.default with
            is_master := some true, key := some k, chain_code := some c }
        | some _ => Except.error "unexpected value for crypto-hdkey.chain_code"
        | none => Except.error "chain code is required for a master key"
      | some _ => Except.error "unexpected value for crypto-hdkey.key_data"
      | none => Except.error "key data is required for a master key"
    | Except.ok im =>
      match optBoolAt m 2 "unexpected value for crypto-hdkey.is_private_key" with
      | Except.error er => Except.error er
      | Except.ok is_private_key =>
      match reqBytesAt m 3 "unexpected value for crypto-hdkey.key_data"
        "key data is required for a hd key" with
      | Except.error er => Except.error er
      | Except.ok key =>
      match optBytesAt m 4 "unexpected value for crypto-hdkey.chain_code" with
      | Except.error er => Except.error er
      | Except.ok chain_code =>
      match optCoinInfoAt m 5 "unexpected value for crypto-hdkey.use_info" with
      | Except.error er => Except.error er
      | Except.ok use_info =>
      match optKeyPathAt m 6 "unexpected value for crypto-hdkey.origin" with
      | Except.error er => Except.error er
      | Except.ok origin =>
      match optKeyPathAt m 7 "unexpected value for crypto-hdkey.children" with
      | Except.error er => Except.error er
      | Except.ok children =>
      match optFpAt m 8 "unexpected value for crypto-hdkey.parent_fingerprint" with
      | Except.error er => Except.error er
      | Except.ok parent_fingerprint =>
      match optTextAt m 9 "unexpected value for crypto-hdkey.name" with
      | Except.error er => Except.error er
      | Except.ok name =>
      match optTextAt m 10 "unexpected value for crypto-hdkey.note" with
      | Except.error er => Except.error er
      | Except.ok note =>
      Except.ok ⟨im, is_private_key, some key, chain_code, use_info, origin,
        children, parent_fingerprint, name, note⟩
  | _ => Except.error "invalid type: cannot parse the value as a map"

/-- `from_bytes` (crypto_hd_key.rs:323-329). -/
def CryptoHDKey.from_bytes (bs : List Nat) : Except String CryptoHDKey :=
  match cborFromSlice bs with
  | Except.error e => Except.error e
  | Except.ok v => CryptoHDKey.from_cbor v

/-! ## Map lemmas -/

theorem natCastNotNeg (n : Nat) : ¬ ((n : Int) < 0) := by omega

theorem mapGetInt_wrap_insert_self (l : List (Int × Value)) (k : Int) (v : Value) :
    mapGetInt (wrapIntMap (hdMapInsert l k v)) k = some v := by
  induction l with
  | nil => simp [hdMapInsert, wrapIntMap, mapGetInt]
  | cons p rest ih =>
    rcases p with ⟨j, w⟩
    by_cases hkj : k = j
    · simp [hdMapInsert, hkj, wrapIntMap, mapGetInt]
    · by_cases hlt : k < j
      · simp [hdMapInsert, hkj, hlt, wrapIntMap, mapGetInt]
      · simp only [hdMapInsert, hkj, hlt, if_false, wrapIntMap, List.map_cons,
          mapGetInt, Ne.symm hkj, if_neg (Ne.symm hkj)]
        simpa [wrapIntMap] using ih

theorem mapGetInt_wrap_insert_ne (l : List (Int × Value)) (k j : Int) (v : Value)
    (h : k ≠ j) :
    mapGetInt (wrapIntMap (hdMapInsert l j v)) k = mapGetInt (wrapIntMap l) k := by
  induction l with
  | nil => simp [hdMapInsert, wrapIntMap, mapGetInt, Ne.symm h]
  | cons p rest ih =>
    rcases p with ⟨i, w⟩
    by_cases hji : j = i
    · subst hji
      simp [hdMapInsert, wrapIntMap, mapGetInt, Ne.symm h]
    · by_cases hlt : j < i
      · simp [hdMapInsert, hji, hlt, wrapIntMap, mapGetInt, Ne.symm h]
      · by_cases hik : i = k
        · subst hik
          simp [hdMapInsert, hji, hlt, wrapIntMap, mapGetInt]
        · simp only [hdMapInsert, hji, hlt, if_false, wrapIntMap, List.map_cons,
            mapGetInt, if_neg hik]
          simpa [wrapIntMap] using ih

/-! ## Collaborator round-trip lemmas -/

theorem fingerprint_roundtrip (f : Fingerprint) :
    u32ToFp (i128AsU32 ((u32OfFp f : Nat) : Int)) = f := by
  rcases f with ⟨a, b, c, d⟩
  have h0 := a.isLt
  have h1 := b.isLt
  have h2 := c.isLt
  have h3 := d.isLt
  have hval : i128AsU32 ((u32OfFp ⟨a, b, c, d⟩ : Nat) : Int) = u32OfFp ⟨a, b, c, d⟩ := by
    simp only [i128AsU32, u32OfFp]
    omega
  rw [hval]
  simp only [u32ToFp, u32OfFp, Fingerprint.mk.injEq]
  refine ⟨?_, ?_, ?_, ?_⟩ <;> (apply Fin.ext; simp; omega)

theorem coinInfo_roundtrip (c : CryptoCoinInfo) :
    CryptoCoinInfo.from_cbor c.to_cbor = Except.ok c := by
  rcases c with ⟨ct, nw⟩
  rcases ct with _ | t <;> rcases nw with _ | n <;>
    simp [CryptoCoinInfo.to_cbor, CryptoCoinInfo.from_cbor, wrapIntMap,
      hdMapInsert, mapGetInt, Int.toNat_ofNat, natCastNotNeg]

theorem decode_encode_components (cs : List PathComponent) :
    decodeComponents (encodeComponents cs) = Except.ok cs := by
  induction cs with
  | nil => rfl
  | cons c rest ih =>
    rcases c with ⟨idx, h⟩
    rcases idx with _ | i
    · have hE : encodeComponents (⟨none, h⟩ :: rest) =
          Value.array [] :: Value.bool h :: encodeComponents rest := by
        simp [encodeComponents]
      rw [hE, decodeComponents, ih]
      rfl
    · have hE : encodeComponents (⟨some i, h⟩ :: rest) =
          Value.integer (Int.ofNat i) :: Value.bool h :: encodeComponents rest := by
        simp [encodeComponents]
      rw [hE, decodeComponents]
      simp [natCastNotNeg, ih, Except.map, Int.toNat_ofNat]

theorem keyPath_roundtrip (p : CryptoKeyPath) :
    CryptoKeyPath.from_cbor p.to_cbor = Except.ok p := by
  rcases p with ⟨cs, sf, dp⟩
  rcases sf with _ | f <;> rcases dp with _ | d <;>
    simp [CryptoKeyPath.to_cbor, CryptoKeyPath.from_cbor, wrapIntMap, mapGetInt,
      decode_encode_components, Int.toNat_ofNat, natCastNotNeg]

/-! ## Key-order machinery -/

/-- Bool guard: the head key (if any) of an integer-keyed list exceeds the
bound. -/
def intHeadLB (b : Int) : List (Int × Value) → Bool
  | [] => true
  | (j, _) :: _ => decide (b < j)

/-- Strictly ascending keys of an integer-keyed association list. -/
def intKeysSorted : List (Int × Value) → Bool
  | [] => true
  | (j, _) :: rest => intHeadLB j rest && intKeysSorted rest

/-- Bool guard: the head entry of CBOR map entries carries an integer key
exceeding the bound. -/
def valHeadLB (b : Int) : List (Value × Value) → Bool
  | [] => true
  | (Value.integer j, _) :: _ => decide (b < j)
  | _ => false

/-- Every key is an integer and the keys are strictly ascending — the
order in which serde_cbor emits BTreeMap entries into the byte stream. -/
def mapKeysAscending : List (Value × Value) → Bool
  | [] => true
  | (Value.integer j, _) :: rest => valHeadLB j rest && mapKeysAscending rest
  | _ => false

theorem valHeadLB_wrap (b : Int) (l : List (Int × Value)) :
    valHeadLB b (wrapIntMap l) = intHeadLB b l := by
  cases l with
  | nil => rfl
  | cons p rest => rcases p with ⟨j, w⟩; rfl

theorem mapKeysAscending_wrap (l : List (Int × Value)) :
    mapKeysAscending (wrapIntMap l) = intKeysSorted l := by
  induction l with
  | nil => rfl
  | cons p rest ih =>
    rcases p with ⟨j, w⟩
    show (valHeadLB j (wrapIntMap rest) && mapKeysAscending (wrapIntMap rest)) = _
    rw [valHeadLB_wrap, ih]
    rfl

theorem mapGetInt_wrap_stepOpt_self {A : Type} (m : List (Int × Value)) (k : Int)
    (f : A → Value) (o : Option A) :
    mapGetInt (wrapIntMap (stepOpt m k f o)) k =
      (match o with
       | some x => some (f x)
       | none => mapGetInt (wrapIntMap m) k) := by
  cases o <;> simp [stepOpt, mapGetInt_wrap_insert_self]

theorem mapGetInt_wrap_stepOpt_ne {A : Type} (m : List (Int × Value)) (k j : Int)
    (f : A → Value) (o : Option A) (h : k ≠ j) :
    mapGetInt (wrapIntMap (stepOpt m j f o)) k = mapGetInt (wrapIntMap m) k := by
  cases o <;> simp [stepOpt, mapGetInt_wrap_insert_ne _ _ _ _ h]

theorem mapGetInt_wrap_nil (k : Int) : mapGetInt (wrapIntMap []) k = none := rfl

theorem hdMapInsert_sorted (l : List (Int × Value)) (k : Int) (v : Value)
    (h : intKeysSorted l = true) :
    intKeysSorted (hdMapInsert l k v) = true ∧
    ∀ b : Int, b < k → intHeadLB b l = true → intHeadLB b (hdMapInsert l k v) = true := by
  induction l with
  | nil =>
    refine ⟨by simp [hdMapInsert, intKeysSorted, intHeadLB], ?_⟩
    intro b hb _
    simp [hdMapInsert, intHeadLB, hb]
  | cons p rest ih =>
    rcases p with ⟨j, w⟩
    have hsorted : intHeadLB j rest = true ∧ intKeysSorted rest = true := by
      simpa [intKeysSorted, Bool.and_eq_true] using h
    obtain ⟨h1, h2⟩ := hsorted
    by_cases hkj : k = j
    · subst hkj
      refine ⟨?_, ?_⟩
      · simp only [hdMapInsert, if_pos rfl, intKeysSorted, h2, Bool.and_true]
        exact h1
      · intro b hb _
        simp [hdMapInsert, intHeadLB, hb]
    · by_cases hlt : k < j
      · refine ⟨?_, ?_⟩
        · simp only [hdMapInsert, if_neg hkj, if_pos hlt, intKeysSorted, intHeadLB,
            decide_eq_true_eq, Bool.and_eq_true]
          exact ⟨hlt, by simpa [intKeysSorted, Bool.and_eq_true] using And.intro h1 h2⟩
        · intro b hb _
          simp [hdMapInsert, hkj, hlt, intHeadLB, hb]
      · have hjk : j < k := by omega
        have hrec := ih h2
        refine ⟨?_, ?_⟩
        · simp only [hdMapInsert, if_neg hkj, if_neg hlt, intKeysSorted, Bool.and_eq_true]
          exact ⟨hrec.2 j hjk h1, hrec.1⟩
        · intro b hb hhd
          have hbj : b < j := by
            simpa [intHeadLB, decide_eq_true_eq] using hhd
          simp [hdMapInsert, hkj, hlt, intHeadLB, hbj]

theorem stepOpt_sorted {A : Type} (m : List (Int × Value)) (k : Int) (f : A → Value)
    (o : Option A) (h : intKeysSorted m = true) :
    intKeysSorted (stepOpt m k f o) = true := by
  cases o with
  | none => simpa [stepOpt] using h
  | some x => simpa [stepOpt] using (hdMapInsert_sorted m k (f x) h).1

/-- The per-key content of the extended-branch map: nothing at keys 1 and
7, the mandatory key bytes at 3, each optional field at its own key — and
at key 6 the children value when present (the source writes children
under the ORIGIN constant, overwriting any origin entry), otherwise the
origin value. -/
theorem extendedMap_lookups (e : CryptoHDKey) (k : List Nat) :
    mapGetInt (wrapIntMap (extendedMapList e k)) 1 = none ∧
    mapGetInt (wrapIntMap (extendedMapList e k)) 2 = e.is_private_key.map Value.bool ∧
    mapGetInt (wrapIntMap (extendedMapList e k)) 3 = some (Value.bytes k) ∧
    mapGetInt (wrapIntMap (extendedMapList e k)) 4 = e.chain_code.map Value.bytes ∧
    mapGetInt (wrapIntMap (extendedMapList e k)) 5 =
      e.use_info.map (fun x => Value.tag coinInfoTag x.to_cbor) ∧
    mapGetInt (wrapIntMap (extendedMapList e k)) 6 =
      (match e.children with
       | some x => some (Value.tag keyPathTag x.to_cbor)
       | none => e.origin.map (fun x => Value.tag keyPathTag x.to_cbor)) ∧
    mapGetInt (wrapIntMap (extendedMapList e k)) 7 = none ∧
    mapGetInt (wrapIntMap (extendedMapList e k)) 8 =
      e.parent_fingerprint.map (fun x => Value.integer (Int.ofNat (u32OfFp x))) ∧
    mapGetInt (wrapIntMap (extendedMapList e k)) 9 = e.name.map Value.text ∧
    mapGetInt (wrapIntMap (extendedMapList e k)) 10 = e.note.map Value.text := by
  refine ⟨?_, ?_, ?_, ?_, ?_, ?_, ?_, ?_, ?_, ?_⟩
  · simp [extendedMapList, mapGetInt_wrap_stepOpt_ne, mapGetInt_wrap_insert_ne,
      mapGetInt_wrap_nil]
  · rcases hip : e.is_private_key with _ | b <;>
      simp [extendedMapList, hip, mapGetInt_wrap_stepOpt_ne,
        mapGetInt_wrap_insert_ne, mapGetInt_wrap_stepOpt_self, mapGetInt_wrap_nil]
  · simp [extendedMapList, mapGetInt_wrap_stepOpt_ne, mapGetInt_wrap_insert_self]
  · rcases hcc : e.chain_code with _ | c <;>
      simp [extendedMapList, hcc, mapGetInt_wrap_stepOpt_ne,
        mapGetInt_wrap_insert_ne, mapGetInt_wrap_stepOpt_self, mapGetInt_wrap_nil]
  · rcases hui : e.use_info with _ | u <;>
      simp [extendedMapList, hui, mapGetInt_wrap_stepOpt_ne,
        mapGetInt_wrap_insert_ne, mapGetInt_wrap_stepOpt_self, mapGetInt_wrap_nil]
  · rcases hch : e.children with _ | h <;> rcases hog : e.origin with _ | o <;>
      simp [extendedMapList, hch, hog, mapGetInt_wrap_stepOpt_ne,
        mapGetInt_wrap_insert_ne, mapGetInt_wrap_stepOpt_self, mapGetInt_wrap_nil]
  · simp [extendedMapList, mapGetInt_wrap_stepOpt_ne, mapGetInt_wrap_insert_ne,
      mapGetInt_wrap_nil]
  · rcases hpf : e.parent_fingerprint with _ | p <;>
      simp [extendedMapList, hpf, mapGetInt_wrap_stepOpt_ne,
        mapGetInt_wrap_insert_ne, mapGetInt_wrap_stepOpt_self, mapGetInt_wrap_nil]
  · rcases hnm : e.name with _ | na <;>
      simp [extendedMapList, hnm, mapGetInt_wrap_stepOpt_ne,
        mapGetInt_wrap_insert_ne, mapGetInt_wrap_stepOpt_self, mapGetInt_wrap_nil]
  · rcases hnt : e.note with _ | tb <;>
      simp [extendedMapList, hnt, mapGetInt_wrap_stepOpt_ne,
        mapGetInt_wrap_insert_ne, mapGetInt_wrap_stepOpt_self, mapGetInt_wrap_nil]

/-- The extended-branch map always has strictly ascending keys. -/
theorem extendedMapList_sorted (e : CryptoHDKey) (k : List Nat) :
    intKeysSorted (extendedMapList e k) = true := by
  unfold extendedMapList
  apply stepOpt_sorted
  apply stepOpt_sorted
  apply stepOpt_sorted
  apply stepOpt_sorted
  apply stepOpt_sorted
  apply stepOpt_sorted
  apply stepOpt_sorted
  refine (hdMapInsert_sorted _ _ _ ?_).1
  apply stepOpt_sorted
  rfl

/-! ## Concrete vectors and helper entities -/

/-- Key bytes of the master-key test vector (crypto_hd_key.rs:344). -/
def tvMasterKeyBytes : List Nat :=
  [0, 232, 243, 46, 114, 61, 236, 244, 5, 26, 239, 172, 142, 44, 147, 201, 197,
   178, 20, 49, 56, 23, 205, 176, 26, 20, 148, 185, 23, 200, 67, 107, 53]

/-- Chain code of the master-key test vector (crypto_hd_key.rs:345). -/
def tvMasterChainCode : List Nat :=
  [135, 61, 255, 129, 192, 47, 82, 86, 35, 253, 31, 229, 22, 126, 172, 58, 85,
   160, 73, 222, 61, 49, 75, 180, 46, 226, 39, 255, 237, 55, 213, 8]

/-- Expected encoding of the master-key test vector (crypto_hd_key.rs:348). -/
def tvMasterEncoded : List Nat :=
  [163, 1, 245, 3, 88, 33, 0, 232, 243, 46, 114, 61, 236, 244, 5, 26, 239, 172,
   142, 44, 147, 201, 197, 178, 20, 49, 56, 23, 205, 176, 26, 20, 148, 185, 23,
   200, 67, 107, 53, 4, 88, 32, 135, 61, 255, 129, 192, 47, 82, 86, 35, 253, 31,
   229, 22, 126, 172, 58, 85, 160, 73, 222, 61, 49, 75, 180, 46, 226, 39, 255,
   237, 55, 213, 8]

/-- A one-component derivation path used as an origin value. -/
def pathA : CryptoKeyPath := ⟨[⟨some 1, false⟩], none, none⟩

/-- A distinct one-component derivation path used as a children value. -/
def pathB : CryptoKeyPath := ⟨[⟨some 2, true⟩], none, none⟩

/-- An extended entity carrying both an origin and a children path. -/
def entityOriginChildren : CryptoHDKey :=
  CryptoHDKey.new_extended_key none [1] none none (some pathA) (some pathB)
    none none none

/-- An extended entity carrying only a children path. -/
def entityChildrenOnly : CryptoHDKey :=
  CryptoHDKey.new_extended_key none [1] none none none (some pathB) none none none

/-! ## Claim theorems -/

/-- C3: the entity built by `new_master_key` from the documented key and
chain-code bytes encodes via `to_bytes` to exactly the documented byte
sequence (hex A301F5035821..D508). -/
theorem master_vector_encodes :
    (CryptoHDKey.new_master_key tvMasterKeyBytes tvMasterChainCode).to_bytes =
      some tvMasterEncoded := by
  rfl

/-- C4: a master-flagged entity encodes to a map with exactly the three
entries at keys 1, 3, 4, whatever its other fields hold. The `key` and
`chain_code` presence hypotheses mirror the construction invariant of
master entities (both constructors and the decoder always populate them),
which `to_cbor` relies on via `.unwrap()`. -/
theorem master_encoding_exactly_three_entries (e : CryptoHDKey) (k c : List Nat)
    (hm : e.isMaster = true) (hk : e.key = some k) (hc : e.chain_code = some c) :
    e.to_cbor = some (Value.map
      [(Value.integer 1, Value.bool true),
       (Value.integer 3, Value.bytes k),
       (Value.integer 4, Value.bytes c)]) := by
  simp [CryptoHDKey.to_cbor, hm, hk, hc, hdMapInsert, wrapIntMap]

/-- Witness for C4 at a concrete master entity with populated auxiliary
fields: the name is omitted from the output. -/
theorem master_encoding_exactly_three_entries_witness :
    ({ CryptoHDKey.new_master_key [7] [8] with name := some [65] } : CryptoHDKey).to_cbor
      = some (Value.map
        [(Value.integer 1, Value.bool true),
         (Value.integer 3, Value.bytes [7]),
         (Value.integer 4, Value.bytes [8])]) :=
  master_encoding_exactly_three_entries _ [7] [8] rfl rfl rfl

/-- C2 (refuted, code slip): for an entity with both origin and children
present, the encoder writes the children value under key 6 (the ORIGIN
constant, crypto_hd_key.rs:182), overwriting the origin entry, and leaves
no entry at key 7 — the CHILDREN constant (7) and the decoder's key-7 read
show key 7 was intended. -/
theorem children_emitted_under_key6_not_key7 :
    entityOriginChildren.to_cbor = some (Value.map
      [(Value.integer 3, Value.bytes [1]),
       (Value.integer 6, Value.tag keyPathTag pathB.to_cbor)]) ∧
    mapGetInt [(Value.integer 3, Value.bytes [1]),
       (Value.integer 6, Value.tag keyPathTag pathB.to_cbor)] 7 = none ∧
    mapGetInt [(Value.integer 3, Value.bytes [1]),
       (Value.integer 6, Value.tag keyPathTag pathB.to_cbor)] 6 =
      some (Value.tag keyPathTag pathB.to_cbor) := by
  refine ⟨rfl, rfl, rfl⟩

/-- C1 counterexample: an extended entity with (only) the children field
set does not survive `from_cbor ∘ to_cbor` — the decoded entity has
`children = none` (the value resurfaces as `origin`). -/
theorem roundtrip_loses_children :
    entityChildrenOnly.to_cbor = some (Value.map
      [(Value.integer 3, Value.bytes [1]),
       (Value.integer 6, Value.tag keyPathTag pathB.to_cbor)]) ∧
    CryptoHDKey.from_cbor (Value.map
      [(Value.integer 3, Value.bytes [1]),
       (Value.integer 6, Value.tag keyPathTag pathB.to_cbor)]) =
      Except.ok ⟨none, none, some [1], none, none, some pathB, none, none, none, none⟩ ∧
    entityChildrenOnly.children = some pathB ∧
    (⟨none, none, some [1], none, none, some pathB, none, none, none, none⟩ :
      CryptoHDKey).children = none := by
  refine ⟨rfl, rfl, rfl, rfl⟩

theorem except_bind_ok {E A B : Type} (a : A) (f : A → Except E B) :
    (Except.ok (ε := E) a >>= f) = f a := rfl

/-- C1 (amended: children absent): an extended entity built by
`new_extended_key` with any subset of the remaining optional fields
round-trips through `from_cbor ∘ to_cbor` with every constructor field
reproduced (`is_master` decodes as `none` since the extended encoder
never emits key 1, but that field is not part of the claim's list). -/
theorem extended_roundtrip_without_children
    (ipk : Option Bool) (k : List Nat) (cc : Option (List Nat))
    (ui : Option CryptoCoinInfo) (og : Option CryptoKeyPath)
    (pf : Option Fingerprint) (nm nt : Option (List Nat)) :
    (CryptoHDKey.new_extended_key ipk k cc ui og none pf nm nt).to_cbor.map
      CryptoHDKey.from_cbor =
    some (Except.ok
      ⟨none, ipk, some k, cc, ui, og, none, pf, nm, nt⟩) := by
  obtain ⟨g1, g2, g3, g4, g5, g6, g7, g8, g9, g10⟩ :=
    extendedMap_lookups ⟨some false, ipk, some k, cc, ui, og, none, pf, nm, nt⟩ k
  simp only at g1 g2 g3 g4 g5 g6 g7 g8 g9 g10
  have hcbor : (CryptoHDKey.new_extended_key ipk k cc ui og none pf nm nt).to_cbor =
      some (Value.map (wrapIntMap
        (extendedMapList ⟨some false, ipk, some k, cc, ui, og, none, pf, nm, nt⟩ k))) := rfl
  rw [hcbor]
  simp only [Option.map_some']
  have h2 : ∀ s, optBoolAt (wrapIntMap
      (extendedMapList ⟨some false, ipk, some k, cc, ui, og, none, pf, nm, nt⟩ k)) 2 s =
      Except.ok ipk := by
    intro s
    rcases hip : ipk with _ | b <;> rw [hip] at g2 <;> simp [optBoolAt, g2]
  have h3 : ∀ s1 s2, reqBytesAt (wrapIntMap
      (extendedMapList ⟨some false, ipk, some k, cc, ui, og, none, pf, nm, nt⟩ k)) 3 s1 s2 =
      Except.ok k := by
    intro s1 s2
    simp [reqBytesAt, g3]
  have h4 : ∀ s, optBytesAt (wrapIntMap
      (extendedMapList ⟨some false, ipk, some k, cc, ui, og, none, pf, nm, nt⟩ k)) 4 s =
      Except.ok cc := by
    intro s
    rcases hc : cc with _ | c <;> rw [hc] at g4 <;> simp [optBytesAt, g4]
  have h5 : ∀ s, optCoinInfoAt (wrapIntMap
      (extendedMapList ⟨some false, ipk, some k, cc, ui, og, none, pf, nm, nt⟩ k)) 5 s =
      Except.ok ui := by
    intro s
    rcases hu : ui with _ | u <;> rw [hu] at g5 <;>
      simp [optCoinInfoAt, g5, coinInfo_roundtrip, Except.map]
  have h6 : ∀ s, optKeyPathAt (wrapIntMap
      (extendedMapList ⟨some false, ipk, some k, cc, ui, og, none, pf, nm, nt⟩ k)) 6 s =
      Except.ok og := by
    intro s
    rcases ho : og with _ | o <;> rw [ho] at g6 <;>
      simp [optKeyPathAt, g6, keyPath_roundtrip, Except.map]
  have h7 : ∀ s, optKeyPathAt (wrapIntMap
      (extendedMapList ⟨some false, ipk, some k, cc, ui, og, none, pf, nm, nt⟩ k)) 7 s =
      Except.ok none := by
    intro s
    simp [optKeyPathAt, g7]
  have h8 : ∀ s, optFpAt (wrapIntMap
      (extendedMapList ⟨some false, ipk, some k, cc, ui, og, none, pf, nm, nt⟩ k)) 8 s =
      Except.ok pf := by
    intro s
    rcases hp : pf with _ | p <;> rw [hp] at g8 <;>
      simp [optFpAt, g8, Int.ofNat_eq_natCast, fingerprint_roundtrip]
  have h9 : ∀ s, optTextAt (wrapIntMap
      (extendedMapList ⟨some false, ipk, some k, cc, ui, og, none, pf, nm, nt⟩ k)) 9 s =
      Except.ok nm := by
    intro s
    rcases hn : nm with _ | na <;> rw [hn] at g9 <;> simp [optTextAt, g9]
  have h10 : ∀ s, optTextAt (wrapIntMap
      (extendedMapList ⟨some false, ipk, some k, cc, ui, og, none, pf, nm, nt⟩ k)) 10 s =
      Except.ok nt := by
    intro s
    rcases hn : nt with _ | tb <;> rw [hn] at g10 <;> simp [optTextAt, g10]
  simp only [CryptoHDKey.from_cbor, g1, h2, h3, h4, h5, h6, h7, h8, h9, h10,
    except_bind_ok]

theorem except_bind_err {E A B : Type} (e : E) (f : A → Except E B) :
    (Except.error (α := A) e >>= f) = Except.error e := rfl

/-- Whether a result is the error case (explicit failure value). -/
def isError {E A : Type} : Except E A → Bool
  | Except.error _ => true
  | Except.ok _ => false

/-- A non-master entity whose origin path has zero components (and
otherwise well-formed key material). -/
def entityEmptyOrigin : CryptoHDKey :=
  { CryptoHDKey.default with
    key := some (List.replicate 33 0),
    chain_code := some (List.replicate 32 0),
    origin := some ⟨[], none, none⟩ }

/-- The same entity with a single hardened component in its origin. -/
def entityOneCompOrigin : CryptoHDKey :=
  { entityEmptyOrigin with origin := some ⟨[⟨some 1, true⟩], none, none⟩ }

/-- C6 (refuted, code slip): with an origin present but holding zero
components, `get_bip32_key` panics at `.last().unwrap()`
(crypto_hd_key.rs:112) instead of emitting child index 0 — the payload
builder returns `none` (the panic marker). With a non-empty origin the
child-index field is the last component's canonical index as claimed. -/
theorem bip32_panics_on_empty_origin :
    entityEmptyOrigin.get_bip32_payload = none ∧
    entityOneCompOrigin.get_bip32_payload =
      some ([4, 136, 178, 30] ++ [1] ++ [0, 0, 0, 0] ++ be4 2147483649 ++
        List.replicate 32 0 ++ List.replicate 33 0) := by
  refine ⟨rfl, rfl⟩

/-- The payload `get_bip32_key` builds for a fully-default entity: public
version bytes followed by 73 zero bytes — 77 bytes in total. -/
def defaultBip32Payload : List Nat := [4, 136, 178, 30] ++ List.replicate 73 0

/-- C7 (refuted for the key slot): with `key` absent the source fills the
key slot with `vec![0; 32]` (crypto_hd_key.rs:103) — 32 zero bytes, not
33 — so the pre-checksum payload is 77 bytes, not 78; the chain-code slot
is correctly filled with 32 zero bytes. -/
theorem bip32_default_key_is_32_zero_bytes :
    CryptoHDKey.default.get_bip32_payload = some defaultBip32Payload ∧
    defaultBip32Payload.length = 77 ∧
    List.take 32 (List.drop 13 defaultBip32Payload) = List.replicate 32 0 ∧
    List.drop 45 defaultBip32Payload = List.replicate 32 0 := by
  refine ⟨rfl, rfl, rfl, rfl⟩

/-- C10: in a non-master map, any integer at key 8 is accepted; the
decoder truncates it to its low 32 bits (`as u32`, two's-complement wrap
for negative or oversized values) and stores those as 4 big-endian bytes;
the final conjunct shows -1 silently wrapping to ff ff ff ff. -/
theorem fingerprint_integer_truncated_mod_2_32 :
    (∀ (x : Int) (k : List Nat),
      CryptoHDKey.from_cbor (Value.map
        [(Value.integer 3, Value.bytes k), (Value.integer 8, Value.integer x)]) =
      Except.ok ⟨none, none, some k, none, none, none, none,
        some (u32ToFp (i128AsU32 x)), none, none⟩) ∧
    CryptoHDKey.from_cbor (Value.map
      [(Value.integer 3, Value.bytes []), (Value.integer 8, Value.integer (-1))]) =
    Except.ok ⟨none, none, some [], none, none, none, none,
      some ⟨255, 255, 255, 255⟩, none, none⟩ := by
  constructor
  · intro x k
    simp [CryptoHDKey.from_cbor, mapGetInt, optBoolAt, reqBytesAt, optBytesAt,
      optCoinInfoAt, optKeyPathAt, optFpAt, optTextAt]
  · rfl

/-- C8: `to_bytes` is deterministic on equal entities, and every map
`to_cbor` produces carries its integer keys in strictly ascending order —
the order in which `encodeValue` emits them into the byte stream. -/
theorem encode_deterministic_and_keys_ascending :
    (∀ e1 e2 : CryptoHDKey, e1 = e2 → e1.to_bytes = e2.to_bytes) ∧
    (∀ (e : CryptoHDKey) (m : List (Value × Value)),
      e.to_cbor = some (Value.map m) → mapKeysAscending m = true) := by
  refine ⟨fun e1 e2 h => by rw [h], ?_⟩
  intro e m h
  unfold CryptoHDKey.to_cbor at h
  by_cases hm : e.isMaster
  · rw [if_pos hm] at h
    rcases hk : e.key with _ | k <;> rcases hc : e.chain_code with _ | c <;>
      rw [hk, hc] at h <;> simp at h
    rw [← h, mapKeysAscending_wrap]
    simp [hdMapInsert, intKeysSorted, intHeadLB]
  · rw [if_neg hm] at h
    rcases hk : e.key with _ | k <;> rw [hk] at h <;> simp at h
    rw [← h, mapKeysAscending_wrap]
    exact extendedMapList_sorted e k

/-- Witness for C8 at the concrete master entity: determinism and the
ascending key order 1 < 3 < 4 of its encoded map. -/
theorem encode_deterministic_and_keys_ascending_witness :
    (CryptoHDKey.new_master_key [7] [8]).to_bytes =
      (CryptoHDKey.new_master_key [7] [8]).to_bytes ∧
    mapKeysAscending
      [(Value.integer 1, Value.bool true),
       (Value.integer 3, Value.bytes [7]),
       (Value.integer 4, Value.bytes [8])] = true :=
  ⟨encode_deterministic_and_keys_ascending.1 _ _ rfl,
   encode_deterministic_and_keys_ascending.2 (CryptoHDKey.new_master_key [7] [8]) _ rfl⟩

/-- C5: decoding a map whose key 1 is the boolean true requires byte
strings at keys 3 and 4 — when both are present the result is the master
entity with exactly those two payloads and every other field absent,
regardless of any other keys in the map; when either is missing or
non-byte-typed the decode is an error. -/
theorem master_decode_requires_byte_keys_3_4 (m : List (Value × Value))
    (h1 : mapGetInt m 1 = some (Value.bool true)) :
    (∀ k c, mapGetInt m 3 = some (Value.bytes k) →
      mapGetInt m 4 = some (Value.bytes c) →
      CryptoHDKey.from_cbor (Value.map m) =
        Except.ok ⟨some true, none, some k, some c, none, none, none, none, none, none⟩) ∧
    (((∀ k, mapGetInt m 3 ≠ some (Value.bytes k)) ∨
      (∀ c, mapGetInt m 4 ≠ some (Value.bytes c))) →
      isError (CryptoHDKey.from_cbor (Value.map m)) = true) := by
  constructor
  · intro k c h3 h4
    simp [CryptoHDKey.from_cbor, h1, h3, h4, CryptoHDKey.default]
  · intro hbad
    rcases h3 : mapGetInt m 3 with _ | v
    · simp [CryptoHDKey.from_cbor, h1, h3, isError]
    · cases v with
      | bytes bs =>
        rcases hbad with hbad | hbad
        · exact absurd h3 (hbad bs)
        · rcases h4 : mapGetInt m 4 with _ | w
          · simp [CryptoHDKey.from_cbor, h1, h3, h4, isError]
          · cases w with
            | bytes cs => exact absurd h4 (hbad cs)
            | null => simp [CryptoHDKey.from_cbor, h1, h3, h4, isError]
            | bool b => simp [CryptoHDKey.from_cbor, h1, h3, h4, isError]
            | integer i => simp [CryptoHDKey.from_cbor, h1, h3, h4, isError]
            | text ts => simp [CryptoHDKey.from_cbor, h1, h3, h4, isError]
            | array xs => simp [CryptoHDKey.from_cbor, h1, h3, h4, isError]
            | map mm => simp [CryptoHDKey.from_cbor, h1, h3, h4, isError]
            | tag t vv => simp [CryptoHDKey.from_cbor, h1, h3, h4, isError]
      | null => simp [CryptoHDKey.from_cbor, h1, h3, isError]
      | bool b => simp [CryptoHDKey.from_cbor, h1, h3, isError]
      | integer i => simp [CryptoHDKey.from_cbor, h1, h3, isError]
      | text ts => simp [CryptoHDKey.from_cbor, h1, h3, isError]
      | array xs => simp [CryptoHDKey.from_cbor, h1, h3, isError]
      | map mm => simp [CryptoHDKey.from_cbor, h1, h3, isError]
      | tag t vv => simp [CryptoHDKey.from_cbor, h1, h3, isError]

/-- The concrete master map used to witness C5 (one extra ignored key). -/
def c5WitnessMap : List (Value × Value) :=
  [(Value.integer 1, Value.bool true),
   (Value.integer 3, Value.bytes [7]),
   (Value.integer 4, Value.bytes [8]),
   (Value.integer 9, Value.text [65])]

/-- Witness for C5 at a concrete master map (with an extra ignored key). -/
theorem master_decode_requires_byte_keys_3_4_witness :
    CryptoHDKey.from_cbor (Value.map c5WitnessMap) =
    Except.ok ⟨some true, none, some [7], some [8], none, none, none, none, none, none⟩ :=
  (master_decode_requires_byte_keys_3_4 c5WitnessMap rfl).1 [7] [8] rfl rfl


/-- Inversion for the required-bytes helper: success pins the lookup. -/
theorem reqBytesAt_ok (m : List (Value × Value)) (k : Int) (s1 s2 : String)
    (bs : List Nat) (h : reqBytesAt m k s1 s2 = Except.ok bs) :
    mapGetInt m k = some (Value.bytes bs) := by
  unfold reqBytesAt at h
  split at h <;> simp_all

/-- Any successful `from_cbor` yields a fully constructed entity: the key
is always populated, and a master-flagged result also has its chain code
populated with every optional field absent. -/
theorem from_cbor_ok_shape (v : Value) (e : CryptoHDKey)
    (h : CryptoHDKey.from_cbor v = Except.ok e) :
    e.key.isSome = true ∧
    (e.is_master = some true →
      e.chain_code.isSome = true ∧ e.is_private_key = none ∧ e.use_info = none ∧
      e.origin = none ∧ e.children = none ∧ e.parent_fingerprint = none ∧
      e.name = none ∧ e.note = none) := by
  unfold CryptoHDKey.from_cbor at h
  split at h
  iterate 12 (all_goals try split at h)
  all_goals try (simp at h)
  · subst h
    refine ⟨rfl, fun _ => ?_⟩
    simp [CryptoHDKey.default]
  · subst h
    refine ⟨rfl, fun hm => absurd hm (by assumption)⟩

/-- A successful `from_cbor` on a map requires a byte string at key 3 —
both decode branches demand it. -/
theorem from_cbor_ok_requires_key3 (v : Value) (e : CryptoHDKey)
    (h : CryptoHDKey.from_cbor v = Except.ok e) :
    ∀ m : List (Value × Value), v = Value.map m →
      ∃ k, mapGetInt m 3 = some (Value.bytes k) := by
  unfold CryptoHDKey.from_cbor at h
  split at h
  iterate 12 (all_goals try split at h)
  all_goals try (simp at h)
  · intro m hm
    injection hm with h2
    subst h2
    exact ⟨_, by assumption⟩
  · intro m hm
    injection hm with h2
    subst h2
    exact ⟨_, reqBytesAt_ok _ _ _ _ _ (by assumption)⟩

/-- C9: decoding is total-or-error and all-or-nothing — a successful
`from_bytes` always carries a fully constructed entity (key present;
master results additionally have the chain code present and every other
field absent), and a required-field violation (key 3 missing) makes the
whole decode an explicit error value. In the embedding every Rust
failure path of `from_bytes`/`from_cbor` is an explicit `Except.error`
(the source has no panicking operation on these paths), so totality is
the totality of the Lean functions themselves. -/
theorem decode_total_or_error :
    (∀ (bs : List Nat) (e : CryptoHDKey), CryptoHDKey.from_bytes bs = Except.ok e →
      e.key.isSome = true ∧
      (e.is_master = some true →
        e.chain_code.isSome = true ∧ e.is_private_key = none ∧ e.use_info = none ∧
        e.origin = none ∧ e.children = none ∧ e.parent_fingerprint = none ∧
        e.name = none ∧ e.note = none)) ∧
    (∀ m : List (Value × Value), mapGetInt m 3 = none →
      isError (CryptoHDKey.from_cbor (Value.map m)) = true) := by
  constructor
  · intro bs e h
    unfold CryptoHDKey.from_bytes at h
    rcases hp : cborFromSlice bs with er | v
    all_goals rw [hp] at h
    · simp at h
    · exact from_cbor_ok_shape v e h
  · intro m h3
    rcases hr : CryptoHDKey.from_cbor (Value.map m) with er | ee
    · simp [isError]
    · obtain ⟨k, hk⟩ := from_cbor_ok_requires_key3 (Value.map m) ee hr m rfl
      rw [h3] at hk
      simp at hk

/-- Witness for C9 at the concrete byte string A1 03 41 07 (a map with a
single key-3 byte-string entry). -/
theorem decode_total_or_error_witness :
    ((⟨none, none, some [7], none, none, none, none, none, none, none⟩ :
      CryptoHDKey).key.isSome = true) :=
  (decode_total_or_error.1 [161, 3, 65, 7]
    ⟨none, none, some [7], none, none, none, none, none, none, none⟩ rfl).1

/-! ## Fidelity check of the modelled collaborators

The source's second test vector (crypto_hd_key.rs:352-377) exercises the
Coin-Info and Key-Path collaborators through the extended branch; the
embedding reproduces its bytes exactly, pinning the modelled codecs to
the wire format the source tests against. -/

/-- The extended entity of the source's second test vector: public key,
chain code, test-network coin info, path 44'/1'/1'/0/1 and parent
fingerprint e9181cf3. -/
def tvExtendedEntity : CryptoHDKey :=
  CryptoHDKey.new_extended_key none
    [2, 111, 226, 53, 87, 69, 187, 45, 179, 99, 11, 188, 128, 239, 93, 88, 149,
     28, 150, 60, 132, 31, 84, 23, 11, 166, 229, 193, 43, 231, 252, 18, 166]
    (some [206, 209, 85, 199, 36, 86, 37, 88, 129, 121, 53, 20, 237, 197, 189,
      148, 71, 231, 247, 74, 187, 136, 198, 214, 182, 72, 15, 208, 22, 238, 140, 133])
    (some ⟨none, some 1⟩)
    (some ⟨[⟨some 44, true⟩, ⟨some 1, true⟩, ⟨some 1, true⟩, ⟨some 0, false⟩,
      ⟨some 1, false⟩], none, none⟩)
    none (some ⟨233, 24, 28, 243⟩) none none

/-- Expected encoding of the second test vector (crypto_hd_key.rs:375). -/
def tvExtendedEncoded : List Nat :=
  [165, 3, 88, 33, 2, 111, 226, 53, 87, 69, 187, 45, 179, 99, 11, 188, 128,
   239, 93, 88, 149, 28, 150, 60, 132, 31, 84, 23, 11, 166, 229, 193, 43, 231,
   252, 18, 166, 4, 88, 32, 206, 209, 85, 199, 36, 86, 37, 88, 129, 121, 53,
   20, 237, 197, 189, 148, 71, 231, 247, 74, 187, 136, 198, 214, 182, 72, 15,
   208, 22, 238, 140, 133, 5, 217, 1, 49, 161, 2, 1, 6, 217, 1, 48, 161, 1,
   138, 24, 44, 245, 1, 245, 1, 245, 0, 244, 1, 244, 8, 26, 233, 24, 28, 243]

/-- The embedding reproduces the second test vector byte-for-byte,
including the tagged Coin-Info (D90131) and Key-Path (D90130) sub-values
produced by the modelled collaborators, and decodes those bytes back to
the same entity (with `is_master` decoding as absent). -/
theorem extended_vector_encodes_and_decodes :
    tvExtendedEntity.to_bytes = some tvExtendedEncoded ∧
    CryptoHDKey.from_bytes tvExtendedEncoded =
      Except.ok { tvExtendedEntity with is_master := none } := by
  refine ⟨rfl, rfl⟩
